import Mathlib

/-!
Verification of the mcp2517fd CAN controller driver core
(drivers/net/can/spi/mcp2517fd.c) against its natural-language design
specification.  The definitions below are a shallow embedding of the C
source: machine integers become Nat with explicit truncation where the C
arithmetic can wrap, SPI register traffic becomes an explicit byte-addressed
register store plus transmitted byte lists, and fallible calls return
Except.  Branch decisions taken by the C code from values read over the
link are driven by explicit oracle inputs.
-/

/-- Linux BIT(n) macro. -/
def BIT (n : Nat) : Nat := 2 ^ n

/-- Linux GENMASK(h, l) macro: bits l..h set. -/
def GENMASK (h l : Nat) : Nat := (2 ^ (h + 1 - l) - 1) * 2 ^ l

/-- Linux fls(): one plus the index of the most significant set bit;
fls 0 = 0.  Fuel-based structural recursion (64 suffices for u32 inputs). -/
def flsAux : Nat → Nat → Nat
  | 0, _ => 0
  | fuel + 1, n => if n = 0 then 0 else flsAux fuel (n / 2) + 1

/-- Linux fls() over 32-bit values (fuel 64 covers all inputs used). -/
def fls (n : Nat) : Nat := flsAux 64 n

/-- Linux ffs(): one plus the index of the least significant set bit;
ffs 0 = 0. -/
def ffsAux : Nat → Nat → Nat
  | 0, _ => 0
  | fuel + 1, n =>
    if n = 0 then 0 else if n % 2 = 1 then 1 else ffsAux fuel (n / 2) + 1

/-- Linux ffs() over 32-bit values. -/
def ffs (n : Nat) : Nat := ffsAux 64 n

/-- Errno results surfaced by the driver core. -/
inductive Err where
  | EINVAL
  | ENODEV
deriving DecidableEq

/-- Projection extracting the error of an Except result, if any. -/
def exceptErr {α : Type} : Except Err α → Option Err
  | .error e => some e
  | .ok _ => none

/-- ADDRESS_MASK: low 12 bits of the command header carry the address. -/
def ADDRESS_MASK : Nat := 0x0fff

def INSTRUCTION_RESET : Nat := 0x0000
def INSTRUCTION_READ : Nat := 0x3000
def INSTRUCTION_WRITE : Nat := 0x2000
def INSTRUCTION_READ_CRC : Nat := 0xB000
def INSTRUCTION_WRITE_CRC : Nat := 0xA000
def INSTRUCTION_WRITE_SAVE : Nat := 0xC000

/-- mcp2517fd_calc_cmd_addr: build the 2-byte big-endian command header
cmd | (addr & ADDRESS_MASK).  Both C parameters are u16, modelled by
truncating the Nat arguments mod 2^16. -/
def mcp2517fd_calc_cmd_addr (cmd addr : Nat) : List Nat :=
  let c := (cmd % 2 ^ 16) ||| ((addr % 2 ^ 16) &&& ADDRESS_MASK)
  [(c >>> 8) &&& 0xff, c &&& 0xff]

/-- first byte of the span covering a mask, as the C code computes it. -/
def first_byte (mask : Nat) : Nat := (ffs mask - 1) / 8

/-- last byte of the span covering a mask, as the C code computes it. -/
def last_byte (mask : Nat) : Nat := (fls mask - 1) / 8

/-- byte off of the little-endian in-memory image of the u32 value v. -/
def le32Byte (v off : Nat) : Nat := v / 2 ^ (8 * off) % 256

/-- Byte at offset off of the 4-byte stack object holding le32(v).  The C
write path reads from (u32 *)&data + first_byte, so offsets beyond the
object (off >= 4) yield adjacent stack memory, modelled by the garbage
oracle. -/
def txObjByte (v : Nat) (garbage : Nat → Nat) (off : Nat) : Nat :=
  if off < 4 then le32Byte v off else garbage off % 256

/-- mcp2517fd_cmd_read_mask: masked register read.  Returns the value the
C code leaves in *data together with the transmitted header bytes.
The C code receives the span bytes into (u32 *)data + first_byte, i.e. at
byte offset 4*first_byte of the zero-initialised 4-byte buffer; received
bytes falling outside the object are dropped. -/
def mcp2517fd_cmd_read_mask (regs : Nat → Nat) (reg mask : Nat) :
    Except Err (Nat × List Nat) :=
  if mask = 0 then .error .EINVAL else
  let fb := first_byte mask
  let len := last_byte mask - fb + 1
  let buf : Nat → Nat := fun off =>
    if 4 * fb ≤ off ∧ off < 4 * fb + len then
      regs (reg + fb + (off - 4 * fb)) % 256
    else 0
  .ok (buf 0 + buf 1 * 2 ^ 8 + buf 2 * 2 ^ 16 + buf 3 * 2 ^ 24,
       mcp2517fd_calc_cmd_addr INSTRUCTION_READ (reg + fb))

/-- mcp2517fd_cmd_write_mask: masked register write.  Returns the updated
register store and the full transmitted byte sequence (2-byte header plus
the span bytes taken from offset 4*first_byte of the 4-byte le32 object). -/
def mcp2517fd_cmd_write_mask (regs garbage : Nat → Nat) (reg v mask : Nat) :
    Except Err ((Nat → Nat) × List Nat) :=
  if mask = 0 then .error .EINVAL else
  let fb := first_byte mask
  let len := last_byte mask - fb + 1
  let regs2 : Nat → Nat := fun a =>
    if reg + fb ≤ a ∧ a < reg + fb + len then
      txObjByte v garbage (4 * fb + (a - (reg + fb)))
    else regs a
  .ok (regs2,
       mcp2517fd_calc_cmd_addr INSTRUCTION_WRITE (reg + fb) ++
       (List.range len).map (fun k => txObjByte v garbage (4 * fb + k)))

/-- truncation to u32. -/
def u32 (n : Nat) : Nat := n % 2 ^ 32

/-- u32 subtraction of 1 with wrap-around, as C computes field - 1. -/
def u32sub1 (n : Nat) : Nat := (n % 2 ^ 32 + (2 ^ 32 - 1)) % 2 ^ 32

def CAN_NBTCFG : Nat := 0x04
def CAN_NBTCFG_SJW_BITS : Nat := 7
def CAN_NBTCFG_SJW_SHIFT : Nat := 0
def CAN_NBTCFG_TSEG2_BITS : Nat := 7
def CAN_NBTCFG_TSEG2_SHIFT : Nat := 8
def CAN_NBTCFG_TSEG1_BITS : Nat := 8
def CAN_NBTCFG_TSEG1_SHIFT : Nat := 16
def CAN_NBTCFG_BRP_BITS : Nat := 8
def CAN_NBTCFG_BRP_SHIFT : Nat := 24

def CAN_DBTCFG : Nat := 0x08
def CAN_DBTCFG_SJW_BITS : Nat := 4
def CAN_DBTCFG_SJW_SHIFT : Nat := 0
def CAN_DBTCFG_TSEG2_BITS : Nat := 4
def CAN_DBTCFG_TSEG2_SHIFT : Nat := 8
def CAN_DBTCFG_TSEG1_BITS : Nat := 5
def CAN_DBTCFG_TSEG1_SHIFT : Nat := 16
def CAN_DBTCFG_BRP_BITS : Nat := 8
def CAN_DBTCFG_BRP_SHIFT : Nat := 24

/-- Register word computed by mcp2517fd_do_set_nominal_bittiming (u32
arithmetic, no range checks, no masking in the source). -/
def mcp2517fd_nominal_bittiming_val (sjw prop_seg phase_seg1 phase_seg2 brp : Nat) : Nat :=
  u32 (u32 (u32sub1 sjw <<< CAN_NBTCFG_SJW_SHIFT)
   ||| u32 (u32sub1 phase_seg2 <<< CAN_NBTCFG_TSEG2_SHIFT)
   ||| u32 (u32sub1 (u32 (phase_seg1 + prop_seg)) <<< CAN_NBTCFG_TSEG1_SHIFT)
   ||| u32 ((brp % 2 ^ 32) <<< CAN_NBTCFG_BRP_SHIFT))

/-- Register word computed by mcp2517fd_do_set_data_bittiming. -/
def mcp2517fd_data_bittiming_val (sjw prop_seg phase_seg1 phase_seg2 brp : Nat) : Nat :=
  u32 (u32 (u32sub1 sjw <<< CAN_DBTCFG_SJW_SHIFT)
   ||| u32 (u32sub1 phase_seg2 <<< CAN_DBTCFG_TSEG2_SHIFT)
   ||| u32 (u32sub1 (u32 (phase_seg1 + prop_seg)) <<< CAN_DBTCFG_TSEG1_SHIFT)
   ||| u32 ((brp % 2 ^ 32) <<< CAN_DBTCFG_BRP_SHIFT))

/-- mcp2517fd_do_set_nominal_bittiming: computes the register word and
unconditionally issues a full-mask register write (mask -1 = 0xffffffff);
the source performs no range validation of the timing parameters. -/
def mcp2517fd_do_set_nominal_bittiming (regs garbage : Nat → Nat)
    (sjw prop_seg phase_seg1 phase_seg2 brp : Nat) :
    Except Err ((Nat → Nat) × List Nat) :=
  mcp2517fd_cmd_write_mask regs garbage CAN_NBTCFG
    (mcp2517fd_nominal_bittiming_val sjw prop_seg phase_seg1 phase_seg2 brp)
    0xffffffff

/-- mcp2517fd_do_set_data_bittiming: same shape for the data phase. -/
def mcp2517fd_do_set_data_bittiming (regs garbage : Nat → Nat)
    (sjw prop_seg phase_seg1 phase_seg2 brp : Nat) :
    Except Err ((Nat → Nat) × List Nat) :=
  mcp2517fd_cmd_write_mask regs garbage CAN_DBTCFG
    (mcp2517fd_data_bittiming_val sjw prop_seg phase_seg1 phase_seg2 brp)
    0xffffffff

def MCP2517FD_OSC_PLLEN : Nat := BIT 0
def MCP2517FD_OSC_OSCDIS : Nat := BIT 2
def MCP2517FD_OSC_SCLKDIV : Nat := BIT 4
def MCP2517FD_OSC_CLKODIV_SHIFT : Nat := 5
def MCP2517FD_OSC_CLKODIV_10 : Nat := 3
def MCP2517FD_OSC_CLKODIV_4 : Nat := 2
def MCP2517FD_OSC_CLKODIV_2 : Nat := 1
def MCP2517FD_OSC_CLKODIV_1 : Nat := 0
def MCP2517FD_OSC_PLLRDY : Nat := BIT 8
def MCP2517FD_OSC_OSCRDY : Nat := BIT 10
def MCP2517FD_OSC_SCLKRDY : Nat := BIT 12

def CAN_CON_DNCNT_MASK : Nat := GENMASK 4 0
def CAN_CON_ISOCRCEN : Nat := BIT 5
def CAN_CON_PXEDIS : Nat := BIT 6
def CAN_CON_WAKFIL : Nat := BIT 8
def CAN_CON_WFT_SHIFT : Nat := 9
def CAN_CON_WFT_MASK : Nat := GENMASK 10 9
def CAN_CON_BRSDIS : Nat := BIT 12
def CAN_CON_RTXAT : Nat := BIT 16
def CAN_CON_ESIGM : Nat := BIT 17
def CAN_CON_SERR2LOM : Nat := BIT 18
def CAN_CON_STEF : Nat := BIT 19
def CAN_CON_TXQEN : Nat := BIT 20
def CAN_CON_OPMOD_SHIFT : Nat := 21
def CAN_CON_OPMOD_MASK : Nat := GENMASK 23 21
def CAN_CON_REQOP_SHIFT : Nat := 24
def CAN_CON_REQOP_MASK : Nat := GENMASK 26 24
def CAN_CON_MODE_CONFIG : Nat := 4
def CAN_CON_ABAT : Nat := BIT 27
def CAN_CON_TXBWS_MASK : Nat := GENMASK 30 28

/-- CAN_CON_DEFAULT, as the macro composes it. -/
def CAN_CON_DEFAULT : Nat :=
  CAN_CON_ISOCRCEN ||| CAN_CON_PXEDIS ||| CAN_CON_WAKFIL
  ||| (3 <<< CAN_CON_WFT_SHIFT) ||| CAN_CON_STEF ||| CAN_CON_TXQEN
  ||| (CAN_CON_MODE_CONFIG <<< CAN_CON_OPMOD_SHIFT)
  ||| (CAN_CON_MODE_CONFIG <<< CAN_CON_REQOP_SHIFT)

/-- CAN_CON_DEFAULT_MASK, as the macro composes it. -/
def CAN_CON_DEFAULT_MASK : Nat :=
  CAN_CON_DNCNT_MASK ||| CAN_CON_ISOCRCEN ||| CAN_CON_PXEDIS
  ||| CAN_CON_WAKFIL ||| CAN_CON_WFT_MASK ||| CAN_CON_BRSDIS
  ||| CAN_CON_RTXAT ||| CAN_CON_ESIGM ||| CAN_CON_SERR2LOM
  ||| CAN_CON_STEF ||| CAN_CON_TXQEN ||| CAN_CON_OPMOD_MASK
  ||| CAN_CON_REQOP_MASK ||| CAN_CON_ABAT ||| CAN_CON_TXBWS_MASK

/-- Values the probe reads back over the link, in the order
mcp2517fd_hw_probe reads them: the OSC register after the blind reset, the
first CAN_CON identity read, and the CAN_CON read after the forced
Config-mode sequence (write Config, delay, reset, delay, re-read). -/
structure ProbeOracle where
  osc : Nat
  con1 : Nat
  con2 : Nat

/-- Identity-check tail of mcp2517fd_hw_probe: if the first CAN_CON read
matches the expected defaults under the mask, done; otherwise blindly
force Config mode (write CAN_CON_DEFAULT, delay, reset, delay), re-read
and require a match, else -ENODEV. -/
def mcp2517fd_probe_con (o : ProbeOracle) : Except Err Unit :=
  if o.con1 &&& CAN_CON_DEFAULT_MASK = CAN_CON_DEFAULT then .ok ()
  else if o.con2 &&& CAN_CON_DEFAULT_MASK ≠ CAN_CON_DEFAULT then .error .ENODEV
  else .ok ()

/-- mcp2517fd_hw_probe: after reset and settle delay, switch on
osc & (OSCRDY | OSCDIS): ready proceeds, disabled writes the default clock
config then proceeds, any other combination is -ENODEV (with only a logged
warning when PLLEN is set without PLLRDY); then the CAN_CON identity
check. -/
def mcp2517fd_hw_probe (o : ProbeOracle) : Except Err Unit :=
  let sel := o.osc &&& (MCP2517FD_OSC_OSCRDY ||| MCP2517FD_OSC_OSCDIS)
  if sel = MCP2517FD_OSC_OSCRDY then mcp2517fd_probe_con o
  else if sel = MCP2517FD_OSC_OSCDIS then mcp2517fd_probe_con o
  else .error .ENODEV

/-- OSC bits mcp2517fd_setup_osc waits for, from the clock configuration. -/
def oscWaitfor (pll div2 : Bool) : Nat :=
  (if pll then MCP2517FD_OSC_PLLRDY else 0)
  ||| (if div2 then MCP2517FD_OSC_SCLKRDY else 0)
  ||| MCP2517FD_OSC_OSCRDY

/-- Polling loop of mcp2517fd_setup_osc: each list element is one OSC
register read within the deadline; the list ending without a value whose
waited-for bits are all set models exceeding the deadline, which the C
code reports as -ENODEV. -/
def oscPoll (waitfor : Nat) : List Nat → Except Err Unit
  | [] => .error .ENODEV
  | p :: rest => if p &&& waitfor = waitfor then .ok () else oscPoll waitfor rest

/-- mcp2517fd_setup_osc: validate the output-clock divider (unsupported
values are -EINVAL), write the clock configuration, then poll until the
oscillator, PLL (if enabled) and divided clock (if enabled) are all ready,
or fail with -ENODEV at the deadline. -/
def mcp2517fd_setup_osc (pll div2 : Bool) (odiv : Int) (polls : List Nat) :
    Except Err Unit :=
  if odiv = 10 ∨ odiv = 4 ∨ odiv = 2 ∨ odiv = 1 ∨ odiv = 0 then
    oscPoll (oscWaitfor pll div2) polls
  else .error .EINVAL

def CAN_MTU : Nat := 16
def CANFD_MTU : Nat := 72

/-- FIFO sizing switch at the top of mcp2517fd_setup_fifo: classic CAN
(CAN_MTU) selects 8-byte payloads (PLSIZE code 0), 32 RX elements and 30
TX FIFOs; CAN FD (CANFD_MTU) selects 64-byte payloads (PLSIZE code 7),
17 RX elements and 8 TX FIFOs; other MTUs are -EINVAL.  Result fields:
(payload_size, payload_mode, rx_fifos, tx_fifos). -/
def mcp2517fd_fifo_sizing (mtu : Nat) : Except Err (Nat × Nat × Nat × Nat) :=
  if mtu = CAN_MTU then .ok (8, 0, 32, 30)
  else if mtu = CANFD_MTU then .ok (64, 7, 17, 8)
  else .error .EINVAL

/-- mcp2517fd_open control flow, reduced to the decisions the oracles
drive: hw_probe first (an error aborts open before any setup), then setup
(whose first fallible hardware step is setup_osc), then setup_fifo.  The
Bool records whether FIFO setup was reached. -/
def mcp2517fd_open (o : ProbeOracle) (pll div2 : Bool) (odiv : Int)
    (polls : List Nat) (mtu : Nat) : Except Err Unit × Bool :=
  match mcp2517fd_hw_probe o with
  | .error e => (.error e, false)
  | .ok _ =>
    match mcp2517fd_setup_osc pll div2 odiv polls with
    | .error e => (.error e, false)
    | .ok _ =>
      match mcp2517fd_fifo_sizing mtu with
      | .error e => (.error e, true)
      | .ok _ => (.ok (), true)

def CAN_EFF_FLAG : Nat := 0x80000000
def CAN_RTR_FLAG : Nat := 0x40000000
def CAN_EFF_MASK : Nat := 0x1fffffff
def CAN_SFF_MASK : Nat := 0x7ff

def CAN_OBJ_FLAGS_DLC_SHIFT : Nat := 0
def CAN_OBJ_FLAGS_IDE : Nat := BIT 4
def CAN_OBJ_FLAGS_RTR : Nat := BIT 5
def CAN_OBJ_FLAGS_BRS : Nat := BIT 6
def CAN_OBJ_FLAGS_FDF : Nat := BIT 7
def CAN_OBJ_FLAGS_ESI : Nat := BIT 8
def CAN_OBJ_FLAGS_SEQ_SHIFT : Nat := 9

/-- Message object produced for a TX slot (id and flags words). -/
structure TxObj where
  id : Nat
  flags : Nat
deriving DecidableEq

/-- mcp2517fd_transmit_message: encode a classic CAN frame into a message
object.  The second flags accumulation reproduces the C operator
precedence exactly: the expression parses as
(prio << SEQ | (id & EFF)) ? IDE : ((0 | (id & RTR)) ? RTR : 0). -/
def mcp2517fd_transmit_message (prio can_id can_dlc : Nat) : TxObj :=
  let dlc := if can_dlc > 8 then 8 else can_dlc
  let obj0 : TxObj :=
    if can_id &&& CAN_EFF_FLAG ≠ 0 then
      { id := can_id &&& CAN_EFF_MASK, flags := CAN_OBJ_FLAGS_IDE }
    else
      { id := can_id &&& CAN_SFF_MASK, flags := 0 }
  let f1 := obj0.flags ||| (dlc <<< CAN_OBJ_FLAGS_DLC_SHIFT)
  let f2 := f1 |||
    (if (prio <<< CAN_OBJ_FLAGS_SEQ_SHIFT) ||| (can_id &&& CAN_EFF_FLAG) ≠ 0
     then CAN_OBJ_FLAGS_IDE
     else if (0 ||| (can_id &&& CAN_RTR_FLAG)) ≠ 0 then CAN_OBJ_FLAGS_RTR
     else 0)
  { obj0 with flags := f2 }

/-- TX slot allocation step of mcp2517fd_start_xmit, under txfifo_lock:
prio = fls(tx_pending_mask); a prio at or beyond tx_fifos returns
NETDEV_TX_BUSY (none) leaving the mask unchanged, otherwise bit prio is
set and the slot index returned. -/
def mcp2517fd_start_xmit (tx_fifos tx_pending_mask : Nat) :
    Option (Nat × Nat) :=
  let prio := fls tx_pending_mask
  if tx_fifos ≤ prio then none
  else some (prio, tx_pending_mask ||| BIT prio)

/-- mcp2517fd_clean: stop-time cleanup clears the whole pending mask. -/
def mcp2517fd_clean (_tx_pending_mask : Nat) : Nat := 0

/-- Modelled from the spec: release(slot_index) of the TX Slot Allocator
clears the slot's bit in the pending bitmap.  The source has no per-slot
release path (the interrupt thread that would consume TEF entries is a
stub), so this operation is taken from the spec's words. -/
def txRelease (mask i : Nat) : Nat :=
  if mask.testBit i then mask - BIT i else mask

/-- Operations driving the TX pending bitmap in the source: a transmit
submission (mcp2517fd_start_xmit) or the stop-time cleanup. -/
inductive TxOp where
  | submit
  | clean
deriving DecidableEq

/-- One bitmap transition: a Busy submission leaves the mask unchanged. -/
def txStep (tx_fifos mask : Nat) : TxOp → Nat
  | .submit =>
    match mcp2517fd_start_xmit tx_fifos mask with
    | none => mask
    | some (_, m2) => m2
  | .clean => mcp2517fd_clean mask

/-- Run a sequence of submissions and cleanups from the empty bitmap. -/
def txRun (tx_fifos : Nat) (ops : List TxOp) : Nat :=
  ops.foldl (fun m op => txStep tx_fifos m op) 0

/-- Repeated allocation: perform s submissions, collecting the assigned
slot indices, stopping early on Busy. -/
def allocSeq (tx_fifos : Nat) : Nat → Nat → List Nat × Nat
  | 0, m => ([], m)
  | s + 1, m =>
    match mcp2517fd_start_xmit tx_fifos m with
    | none => ([], m)
    | some (i, m2) =>
      let r := allocSeq tx_fifos s m2
      (i :: r.1, r.2)

/-- Byte b of a register-word value (little-endian byte order). -/
def byteOf (n b : Nat) : Nat := n / 2 ^ (8 * b) % 256

/-- Value delivered by a masked read, if it succeeded. -/
def readValue (r : Except Err (Nat × List Nat)) : Option Nat :=
  match r with
  | .ok (v, _) => some v
  | .error _ => none

/-- Masked write of v followed by a masked read with the same mask on the
resulting register store: the observable value of the read-after-write
round trip. -/
def rmwValue (regs garbage : Nat → Nat) (reg v mask : Nat) : Option Nat :=
  match mcp2517fd_cmd_write_mask regs garbage reg v mask with
  | .ok (r2, _) => readValue (mcp2517fd_cmd_read_mask r2 reg mask)
  | .error _ => none

/-! Helper lemmas about the fls / ffs embeddings. -/

theorem flsAux_zero_eq (fuel : Nat) : flsAux fuel 0 = 0 := by
  cases fuel <;> simp [flsAux]

theorem flsAux_bounds (fuel : Nat) : ∀ n, n ≠ 0 → n < 2 ^ fuel →
    2 ^ (flsAux fuel n - 1) ≤ n ∧ n < 2 ^ flsAux fuel n := by
  induction fuel with
  | zero =>
    intro n h0 h1
    norm_num at h1
    omega
  | succ f ih =>
    intro n h0 h1
    simp only [flsAux, if_neg h0]
    by_cases h2 : n / 2 = 0
    · have hn1 : n = 1 := by omega
      subst hn1
      simp [h2, flsAux_zero_eq]
    · have hlt : n / 2 < 2 ^ f := by
        rw [pow_succ] at h1
        omega
      obtain ⟨hl, hr⟩ := ih (n / 2) h2 hlt
      have hm1 : 1 ≤ flsAux f (n / 2) := by
        by_contra hc
        push_neg at hc
        interval_cases h : flsAux f (n / 2)
        norm_num at hr
        omega
      constructor
      · have hpow : 2 ^ flsAux f (n / 2) = 2 * 2 ^ (flsAux f (n / 2) - 1) := by
          conv_lhs => rw [show flsAux f (n / 2) = (flsAux f (n / 2) - 1) + 1 by omega]
          rw [pow_succ]
          ring
        simp only [Nat.add_sub_cancel]
        omega
      · rw [pow_succ]
        omega

theorem fls_bounds (n : Nat) (h0 : n ≠ 0) (h1 : n < 2 ^ 64) :
    2 ^ (fls n - 1) ≤ n ∧ n < 2 ^ fls n :=
  flsAux_bounds 64 n h0 h1

theorem fls_pos (n : Nat) (h0 : n ≠ 0) (h1 : n < 2 ^ 64) : 1 ≤ fls n := by
  obtain ⟨_, hr⟩ := fls_bounds n h0 h1
  by_contra hc
  push_neg at hc
  interval_cases h : fls n
  norm_num at hr
  omega

theorem fls_eq_of_bounds (n k : Nat) (h1 : 2 ^ k ≤ n) (h2 : n < 2 ^ (k + 1))
    (h3 : n < 2 ^ 64) : fls n = k + 1 := by
  have h0 : n ≠ 0 := by
    have := Nat.one_le_two_pow (n := k)
    omega
  obtain ⟨hl, hr⟩ := fls_bounds n h0 h3
  have hp := fls_pos n h0 h3
  by_contra hc
  rcases Nat.lt_or_ge (fls n) (k + 1) with h | h
  · have : 2 ^ fls n ≤ 2 ^ k := Nat.pow_le_pow_right (by norm_num) (by omega)
    omega
  · have hge : k + 1 ≤ fls n - 1 := by omega
    have : 2 ^ (k + 1) ≤ 2 ^ (fls n - 1) := Nat.pow_le_pow_right (by norm_num) hge
    omega

theorem fls_two_pow_sub_one (k : Nat) (hk : k ≤ 63) : fls (2 ^ k - 1) = k := by
  cases k with
  | zero => simp [fls, flsAux_zero_eq]
  | succ j =>
    have h1 : 2 ^ j ≤ 2 ^ (j + 1) - 1 := by
      have : 2 ^ (j + 1) = 2 * 2 ^ j := by rw [pow_succ]; ring
      have := Nat.one_le_two_pow (n := j)
      omega
    have h2 : 2 ^ (j + 1) - 1 < 2 ^ (j + 1) := by
      have := Nat.one_le_two_pow (n := j + 1)
      omega
    have h3 : 2 ^ (j + 1) - 1 < 2 ^ 64 := by
      have : 2 ^ (j + 1) ≤ 2 ^ 64 := Nat.pow_le_pow_right (by norm_num) (by omega)
      omega
    exact fls_eq_of_bounds _ j h1 h2 h3

theorem or_two_pow_sub_one (k : Nat) :
    (2 ^ k - 1) ||| 2 ^ k = 2 ^ (k + 1) - 1 := by
  have h := Nat.mul_add_lt_is_or (b := 2 ^ k - 1) (i := k)
    (by have := Nat.one_le_two_pow (n := k); omega) 1
  have h2 : 2 ^ k * 1 + (2 ^ k - 1) = 2 ^ (k + 1) - 1 := by
    rw [pow_succ]
    have := Nat.one_le_two_pow (n := k)
    omega
  calc (2 ^ k - 1) ||| 2 ^ k
      = 2 ^ k ||| (2 ^ k - 1) := Nat.or_comm _ _
    _ = 2 ^ k * 1 ||| (2 ^ k - 1) := by ring_nf
    _ = 2 ^ k * 1 + (2 ^ k - 1) := (Nat.mul_add_lt_is_or (by have := Nat.one_le_two_pow (n := k); omega) 1).symm
    _ = 2 ^ (k + 1) - 1 := h2

theorem start_xmit_pow_sub_one (N k : Nat) (hk : k ≤ 63) :
    mcp2517fd_start_xmit N (2 ^ k - 1) =
      if N ≤ k then none else some (k, 2 ^ (k + 1) - 1) := by
  unfold mcp2517fd_start_xmit
  rw [fls_two_pow_sub_one k hk]
  by_cases h : N ≤ k
  · simp [h]
  · simp [h, BIT, or_two_pow_sub_one]

theorem ffsAux_pos (fuel n : Nat) (h0 : n ≠ 0) (h1 : n < 2 ^ fuel) :
    1 ≤ ffsAux fuel n := by
  cases fuel with
  | zero =>
    norm_num at h1
    omega
  | succ f =>
    simp only [ffsAux, if_neg h0]
    by_cases h : n % 2 = 1 <;> simp [h]

theorem ffsAux_spec (fuel : Nat) : ∀ n, n ≠ 0 → n < 2 ^ fuel →
    n % 2 ^ (ffsAux fuel n - 1) = 0 ∧ n.testBit (ffsAux fuel n - 1) = true := by
  induction fuel with
  | zero =>
    intro n h0 h1
    norm_num at h1
    omega
  | succ f ih =>
    intro n h0 h1
    simp only [ffsAux, if_neg h0]
    by_cases hodd : n % 2 = 1
    · simp [hodd, Nat.mod_one]
    · have h2 : n / 2 ≠ 0 := by omega
      have hlt : n / 2 < 2 ^ f := by
        rw [pow_succ] at h1
        omega
      obtain ⟨hmod, hbit⟩ := ih (n / 2) h2 hlt
      have hpos : 1 ≤ ffsAux f (n / 2) := ffsAux_pos f (n / 2) h2 hlt
      simp only [if_neg hodd]
      set q := n / 2 with hq
      set m := ffsAux f q with hmdef
      have hm : m + 1 - 1 = (m - 1) + 1 := by omega
      constructor
      · rw [hm, pow_succ, mul_comm (2 ^ (m - 1)) 2]
        have heq : n = 2 * q := by omega
        rw [heq, Nat.mul_mod_mul_left, hmod, Nat.mul_zero]
      · rw [hm, Nat.testBit_add_one]
        exact hbit

theorem ffs_spec (n : Nat) (h0 : n ≠ 0) (h1 : n < 2 ^ 64) :
    n % 2 ^ (ffs n - 1) = 0 ∧ n.testBit (ffs n - 1) = true :=
  ffsAux_spec 64 n h0 h1

theorem testBit_eq_false_of_mod (n t i : Nat) (h : n % 2 ^ t = 0) (hi : i < t) :
    n.testBit i = false := by
  obtain ⟨m, hm⟩ := Nat.dvd_of_mod_eq_zero h
  subst hm
  rw [Nat.testBit_to_div_mod]
  have hdiv : 2 ^ t * m / 2 ^ i = 2 ^ (t - i) * m := by
    have ht : (2 : Nat) ^ t = 2 ^ i * 2 ^ (t - i) := by
      rw [← pow_add]
      congr 1
      omega
    rw [ht, Nat.mul_assoc]
    exact Nat.mul_div_cancel_left _ (Nat.two_pow_pos i)
  rw [hdiv]
  have hdvd2 : 2 ∣ 2 ^ (t - i) * m :=
    Dvd.dvd.mul_right (dvd_pow_self 2 (by omega : t - i ≠ 0)) m
  have hz : 2 ^ (t - i) * m % 2 = 0 := Nat.mod_eq_zero_of_dvd hdvd2
  simp [hz]

theorem testBit_true_of_bounds (n k : Nat) (h1 : 2 ^ k ≤ n)
    (h2 : n < 2 ^ (k + 1)) : n.testBit k = true := by
  rw [Nat.testBit_to_div_mod]
  have hd : n / 2 ^ k = 1 := by
    apply Nat.div_eq_of_lt_le
    · omega
    · rw [pow_succ] at h2
      omega
  simp [hd]

theorem byteOf_testBit (n b j : Nat) (hj : j < 8) :
    (byteOf n b).testBit j = n.testBit (8 * b + j) := by
  rw [byteOf, show (256 : Nat) = 2 ^ 8 by norm_num, ← Nat.shiftRight_eq_div_pow,
     Nat.testBit_mod_two_pow, Nat.testBit_shiftRight]
  simp [hj]

theorem byteOf_ne_zero_iff (n b : Nat) :
    byteOf n b ≠ 0 ↔ ∃ j, j < 8 ∧ n.testBit (8 * b + j) = true := by
  constructor
  · intro h
    obtain ⟨i, hbit⟩ := Nat.ne_zero_implies_bit_true h
    have hlt : byteOf n b < 2 ^ 8 := by
      rw [byteOf]
      exact Nat.mod_lt _ (by norm_num)
    have hi : i < 8 := by
      by_contra hc
      push_neg at hc
      have hge := Nat.testBit_implies_ge hbit
      have : (2 : Nat) ^ 8 ≤ 2 ^ i := Nat.pow_le_pow_right (by norm_num) hc
      omega
    exact ⟨i, hi, by rw [← byteOf_testBit n b i hi]; exact hbit⟩
  · rintro ⟨j, hj, hbit⟩
    intro h0
    rw [← byteOf_testBit n b j hj, h0] at hbit
    simp at hbit

theorem mask_bits_low_clear (mask i : Nat) (h0 : mask ≠ 0) (h1 : mask < 2 ^ 32)
    (hi : i < ffs mask - 1) : mask.testBit i = false := by
  have h64 : mask < 2 ^ 64 := lt_of_lt_of_le h1 (by norm_num)
  exact testBit_eq_false_of_mod mask (ffs mask - 1) i (ffs_spec mask h0 h64).1 hi

theorem mask_bits_high_clear (mask i : Nat) (h0 : mask ≠ 0) (h1 : mask < 2 ^ 32)
    (hi : fls mask ≤ i) : mask.testBit i = false := by
  have h64 : mask < 2 ^ 64 := lt_of_lt_of_le h1 (by norm_num)
  obtain ⟨_, hr⟩ := fls_bounds mask h0 h64
  exact Nat.testBit_lt_two_pow
    (lt_of_lt_of_le hr (Nat.pow_le_pow_right (by norm_num) hi))

theorem mask_top_bit_set (mask : Nat) (h0 : mask ≠ 0) (h1 : mask < 2 ^ 32) :
    mask.testBit (fls mask - 1) = true := by
  have h64 : mask < 2 ^ 64 := lt_of_lt_of_le h1 (by norm_num)
  obtain ⟨hl, hr⟩ := fls_bounds mask h0 h64
  have hp := fls_pos mask h0 h64
  apply testBit_true_of_bounds
  · exact hl
  · rw [show fls mask - 1 + 1 = fls mask by omega]
    exact hr

theorem byteOf_first_byte_ne_zero (mask : Nat) (h0 : mask ≠ 0)
    (h1 : mask < 2 ^ 32) : byteOf mask (first_byte mask) ≠ 0 := by
  have h64 : mask < 2 ^ 64 := lt_of_lt_of_le h1 (by norm_num)
  have hbit := (ffs_spec mask h0 h64).2
  rw [byteOf_ne_zero_iff]
  refine ⟨(ffs mask - 1) % 8, Nat.mod_lt _ (by norm_num), ?_⟩
  rw [first_byte,
     show 8 * ((ffs mask - 1) / 8) + (ffs mask - 1) % 8 = ffs mask - 1 by omega]
  exact hbit

theorem byteOf_last_byte_ne_zero (mask : Nat) (h0 : mask ≠ 0)
    (h1 : mask < 2 ^ 32) : byteOf mask (last_byte mask) ≠ 0 := by
  rw [byteOf_ne_zero_iff]
  refine ⟨(fls mask - 1) % 8, Nat.mod_lt _ (by norm_num), ?_⟩
  rw [last_byte,
     show 8 * ((fls mask - 1) / 8) + (fls mask - 1) % 8 = fls mask - 1 by omega]
  exact mask_top_bit_set mask h0 h1

theorem byte_span_bounds (mask b : Nat) (h0 : mask ≠ 0) (h1 : mask < 2 ^ 32)
    (hb : byteOf mask b ≠ 0) : first_byte mask ≤ b ∧ b ≤ last_byte mask := by
  obtain ⟨j, hj, hbit⟩ := (byteOf_ne_zero_iff mask b).mp hb
  have hlow : ffs mask - 1 ≤ 8 * b + j := by
    by_contra hc
    push_neg at hc
    rw [mask_bits_low_clear mask _ h0 h1 hc] at hbit
    exact Bool.false_ne_true hbit
  have hhigh : 8 * b + j < fls mask := by
    by_contra hc
    push_neg at hc
    rw [mask_bits_high_clear mask _ h0 h1 hc] at hbit
    exact Bool.false_ne_true hbit
  rw [first_byte, last_byte]
  omega

theorem fls_le_32 (mask : Nat) (h1 : mask < 2 ^ 32) : fls mask ≤ 32 := by
  by_cases h0 : mask = 0
  · subst h0
    simp [fls, flsAux_zero_eq]
  · have h64 : mask < 2 ^ 64 := lt_of_lt_of_le h1 (by norm_num)
    obtain ⟨hl, _⟩ := fls_bounds mask h0 h64
    by_contra hc
    push_neg at hc
    have : (2 : Nat) ^ 32 ≤ 2 ^ (fls mask - 1) :=
      Nat.pow_le_pow_right (by norm_num) (by omega)
    omega

theorem last_byte_le_three (mask : Nat) (h1 : mask < 2 ^ 32) :
    last_byte mask ≤ 3 := by
  have := fls_le_32 mask h1
  rw [last_byte]
  omega

theorem first_byte_le_last_byte (mask : Nat) (h0 : mask ≠ 0)
    (h1 : mask < 2 ^ 32) : first_byte mask ≤ last_byte mask :=
  (byte_span_bounds mask (first_byte mask) h0 h1
    (byteOf_first_byte_ne_zero mask h0 h1)).2

/-! Remaining shared lemmas. -/

theorem oscPoll_all_fail (waitfor : Nat) (polls : List Nat)
    (h : ∀ p ∈ polls, p &&& waitfor ≠ waitfor) :
    oscPoll waitfor polls = .error .ENODEV := by
  induction polls with
  | nil => rfl
  | cons p rest ih =>
    simp only [oscPoll]
    rw [if_neg (h p (by simp))]
    exact ih (fun q hq => h q (by simp [hq]))

theorem or_mul_two_pow_add (x y k : Nat) (h : x < 2 ^ k) :
    x ||| y * 2 ^ k = x + y * 2 ^ k := by
  rw [mul_comm y, Nat.or_comm, ← Nat.mul_add_lt_is_or h y, Nat.add_comm,
     mul_comm]

theorem mod_and_eq_of_lt (v m k : Nat) (h : m < 2 ^ k) :
    (v % 2 ^ k) &&& m = v &&& m := by
  apply Nat.eq_of_testBit_eq
  intro i
  simp only [Nat.testBit_and, Nat.testBit_mod_two_pow]
  by_cases hi : i < k
  · simp [hi]
  · have hm : m.testBit i = false :=
      Nat.testBit_lt_two_pow
        (lt_of_lt_of_le h (Nat.pow_le_pow_right (by norm_num) (by omega)))
    simp [hi, hm]

/-! Claim theorems. -/

/-- C7: for every register address and value, masked read and masked write
with mask = 0 fail with -EINVAL (InvalidArgument), returning before any
link transaction: no value is produced, no register changes, and no bytes
are transmitted (the error result carries neither). -/
theorem C7_mask_zero_einval (regs garbage : Nat → Nat) (reg v : Nat) :
    mcp2517fd_cmd_read_mask regs reg 0 = .error .EINVAL ∧
    mcp2517fd_cmd_write_mask regs garbage reg v 0 = .error .EINVAL :=
  ⟨rfl, rfl⟩

/-- C9: the encoded command header is exactly 2 bytes, transmitted
big-endian (first byte is the high byte), with 16-bit value
opcode | (address & 0x0fff); the opcode constants have the stated values
and the CRC variants fit the 16-bit header with a clear address field,
so they are representable as alternate opcodes. -/
theorem C9_cmd_header (cmd addr : Nat) (hc : cmd < 2 ^ 16)
    (ha : addr < 2 ^ 16) :
    mcp2517fd_calc_cmd_addr cmd addr =
      [(cmd ||| (addr &&& 0x0fff)) / 2 ^ 8,
       (cmd ||| (addr &&& 0x0fff)) % 2 ^ 8] ∧
    (mcp2517fd_calc_cmd_addr cmd addr).length = 2 ∧
    ((cmd ||| (addr &&& 0x0fff)) / 2 ^ 8) * 2 ^ 8 +
      (cmd ||| (addr &&& 0x0fff)) % 2 ^ 8 = cmd ||| (addr &&& 0x0fff) ∧
    cmd ||| (addr &&& 0x0fff) < 2 ^ 16 ∧
    INSTRUCTION_RESET = 0x0000 ∧ INSTRUCTION_READ = 0x3000 ∧
    INSTRUCTION_WRITE = 0x2000 ∧ INSTRUCTION_READ_CRC = 0xB000 ∧
    INSTRUCTION_WRITE_CRC = 0xA000 ∧ INSTRUCTION_WRITE_SAVE = 0xC000 ∧
    INSTRUCTION_READ_CRC < 2 ^ 16 ∧
    INSTRUCTION_READ_CRC &&& ADDRESS_MASK = 0 ∧
    INSTRUCTION_WRITE_CRC < 2 ^ 16 ∧
    INSTRUCTION_WRITE_CRC &&& ADDRESS_MASK = 0 ∧
    INSTRUCTION_WRITE_SAVE < 2 ^ 16 ∧
    INSTRUCTION_WRITE_SAVE &&& ADDRESS_MASK = 0 := by
  have hmc : cmd % 2 ^ 16 = cmd := Nat.mod_eq_of_lt hc
  have hma : addr % 2 ^ 16 = addr := Nat.mod_eq_of_lt ha
  have hclt : cmd ||| (addr &&& 0x0fff) < 2 ^ 16 :=
    Nat.or_lt_two_pow hc (lt_of_le_of_lt Nat.and_le_right (by norm_num))
  refine ⟨?_, ?_, ?_, hclt, rfl, rfl, rfl, rfl, rfl, rfl,
    by norm_num [INSTRUCTION_READ_CRC], by decide,
    by norm_num [INSTRUCTION_WRITE_CRC], by decide,
    by norm_num [INSTRUCTION_WRITE_SAVE], by decide⟩
  · simp only [mcp2517fd_calc_cmd_addr, hmc, hma, ADDRESS_MASK]
    have h1 : (cmd ||| (addr &&& 0x0fff)) >>> 8 &&& 0xff =
        (cmd ||| (addr &&& 0x0fff)) / 2 ^ 8 := by
      rw [Nat.shiftRight_eq_div_pow,
         show (0xff : Nat) = 2 ^ 8 - 1 by norm_num,
         Nat.and_pow_two_sub_one_eq_mod]
      apply Nat.mod_eq_of_lt
      have : (2 : Nat) ^ 16 = 2 ^ 8 * 2 ^ 8 := by norm_num
      omega
    have h2 : (cmd ||| (addr &&& 0x0fff)) &&& 0xff =
        (cmd ||| (addr &&& 0x0fff)) % 2 ^ 8 := by
      rw [show (0xff : Nat) = 2 ^ 8 - 1 by norm_num,
         Nat.and_pow_two_sub_one_eq_mod]
    rw [h1, h2]
  · simp [mcp2517fd_calc_cmd_addr]
  · have : (2 : Nat) ^ 16 = 2 ^ 8 * 2 ^ 8 := by norm_num
    omega

/-- C9 witness: the header theorem at the concrete opcode READ and
address 0x123. -/
theorem C9_cmd_header_witness :
    mcp2517fd_calc_cmd_addr INSTRUCTION_READ 0x123 =
      [(INSTRUCTION_READ ||| (0x123 &&& 0x0fff)) / 2 ^ 8,
       (INSTRUCTION_READ ||| (0x123 &&& 0x0fff)) % 2 ^ 8] ∧
    (mcp2517fd_calc_cmd_addr INSTRUCTION_READ 0x123).length = 2 ∧
    ((INSTRUCTION_READ ||| (0x123 &&& 0x0fff)) / 2 ^ 8) * 2 ^ 8 +
      (INSTRUCTION_READ ||| (0x123 &&& 0x0fff)) % 2 ^ 8 =
      INSTRUCTION_READ ||| (0x123 &&& 0x0fff) ∧
    INSTRUCTION_READ ||| (0x123 &&& 0x0fff) < 2 ^ 16 ∧
    INSTRUCTION_RESET = 0x0000 ∧ INSTRUCTION_READ = 0x3000 ∧
    INSTRUCTION_WRITE = 0x2000 ∧ INSTRUCTION_READ_CRC = 0xB000 ∧
    INSTRUCTION_WRITE_CRC = 0xA000 ∧ INSTRUCTION_WRITE_SAVE = 0xC000 ∧
    INSTRUCTION_READ_CRC < 2 ^ 16 ∧
    INSTRUCTION_READ_CRC &&& ADDRESS_MASK = 0 ∧
    INSTRUCTION_WRITE_CRC < 2 ^ 16 ∧
    INSTRUCTION_WRITE_CRC &&& ADDRESS_MASK = 0 ∧
    INSTRUCTION_WRITE_SAVE < 2 ^ 16 ∧
    INSTRUCTION_WRITE_SAVE &&& ADDRESS_MASK = 0 :=
  C9_cmd_header INSTRUCTION_READ 0x123 (by norm_num [INSTRUCTION_READ])
    (by norm_num)

/-- C6 counterexample: with sjw = 256 the biased SJW value 255 exceeds the
7-bit nominal SJW field, yet the calculator does not fail with
InvalidArgument as the claim states: the write is issued with no error. -/
theorem C6_counterexample :
    2 ^ CAN_NBTCFG_SJW_BITS ≤ 256 - 1 ∧
    exceptErr (mcp2517fd_do_set_nominal_bittiming
      (fun _ => 0) (fun _ => 0) 256 1 2 1 1) = none := by
  constructor
  · norm_num [CAN_NBTCFG_SJW_BITS]
  · rfl

/-- C6 amended: the bit-timing calculator performs no range validation at
all: for every input (in range or not) both the nominal and data paths
succeed and issue the register write; out-of-range fields are silently
wrapped into the 32-bit register word rather than rejected with
InvalidArgument. -/
theorem C6_no_range_validation (regs garbage : Nat → Nat)
    (sjw prop_seg phase_seg1 phase_seg2 brp : Nat) :
    exceptErr (mcp2517fd_do_set_nominal_bittiming regs garbage
      sjw prop_seg phase_seg1 phase_seg2 brp) = none ∧
    exceptErr (mcp2517fd_do_set_data_bittiming regs garbage
      sjw prop_seg phase_seg1 phase_seg2 brp) = none := by
  constructor <;> rfl

/-- C8: end-to-end classic-CAN scenario: the sizing rule for CAN_MTU
selects the 8-byte payload mode with 30 TX FIFOs; the first submission
(empty pending bitmap) allocates slot 0; the encoded message object for a
standard-ID frame with id 0x123 and 8 data bytes has the IDE flag clear,
DLC field (bits 0-3 of flags) equal to 8, and id 0x123. -/
theorem C8_classic_first_submission :
    mcp2517fd_fifo_sizing CAN_MTU = .ok (8, 0, 32, 30) ∧
    mcp2517fd_start_xmit 30 0 = some (0, 1) ∧
    (mcp2517fd_transmit_message 0 0x123 8).flags &&& CAN_OBJ_FLAGS_IDE = 0 ∧
    (mcp2517fd_transmit_message 0 0x123 8).flags &&& 0xf = 8 ∧
    (mcp2517fd_transmit_message 0 0x123 8).id = 0x123 := by
  refine ⟨rfl, by decide, by decide, by decide, by decide⟩

/-- C4: if after the forced-Config sequence the re-read CAN_CON value does
not match the expected masked defaults, the probe returns -ENODEV
(NotFound), open() fails with that same error, and FIFO setup is never
reached (no FIFO state is created).  The hypotheses put the probe on the
path that reaches the forced sequence: the oscillator check passed and
the first identity read already mismatched. -/
theorem C4_probe_mismatch_aborts_open (o : ProbeOracle) (pll div2 : Bool)
    (odiv : Int) (polls : List Nat) (mtu : Nat)
    (hosc : o.osc &&& (MCP2517FD_OSC_OSCRDY ||| MCP2517FD_OSC_OSCDIS) =
              MCP2517FD_OSC_OSCRDY ∨
            o.osc &&& (MCP2517FD_OSC_OSCRDY ||| MCP2517FD_OSC_OSCDIS) =
              MCP2517FD_OSC_OSCDIS)
    (h1 : o.con1 &&& CAN_CON_DEFAULT_MASK ≠ CAN_CON_DEFAULT)
    (h2 : o.con2 &&& CAN_CON_DEFAULT_MASK ≠ CAN_CON_DEFAULT) :
    mcp2517fd_hw_probe o = .error .ENODEV ∧
    mcp2517fd_open o pll div2 odiv polls mtu = (.error .ENODEV, false) := by
  have hcon : mcp2517fd_probe_con o = .error .ENODEV := by
    rw [mcp2517fd_probe_con, if_neg h1, if_pos h2]
  have hp : mcp2517fd_hw_probe o = .error .ENODEV := by
    rw [mcp2517fd_hw_probe]
    rcases hosc with h | h
    · simp only [h, if_pos rfl]
      exact hcon
    · rw [h]
      have hne : MCP2517FD_OSC_OSCDIS ≠ MCP2517FD_OSC_OSCRDY := by decide
      rw [if_neg hne, if_pos rfl]
      exact hcon
  refine ⟨hp, ?_⟩
  rw [mcp2517fd_open, hp]

/-- C4 witness: concrete oracle with the oscillator ready and both
identity reads returning zero. -/
theorem C4_probe_mismatch_witness :
    mcp2517fd_hw_probe ⟨1024, 0, 0⟩ = .error .ENODEV ∧
    mcp2517fd_open ⟨1024, 0, 0⟩ false false 10 [] 16 =
      (.error .ENODEV, false) :=
  C4_probe_mismatch_aborts_open ⟨1024, 0, 0⟩ false false 10 [] 16
    (Or.inl (by decide)) (by decide) (by decide)

/-- C5 counterexample: the claim asserts the three bring-up failure modes
surface as pairwise distinct errors, but the code returns the same
-ENODEV in all three: an inconsistent oscillator status (here PLLEN set,
neither OSCRDY nor OSCDIS), an exhausted oscillator polling deadline, and
a failed identity verification all produce one identical result. -/
theorem C5_counterexample :
    mcp2517fd_hw_probe ⟨MCP2517FD_OSC_PLLEN, 0, 0⟩ =
      mcp2517fd_setup_osc false false 10 [0] ∧
    mcp2517fd_setup_osc false false 10 [0] =
      mcp2517fd_hw_probe ⟨1024, 0, 0⟩ ∧
    mcp2517fd_hw_probe ⟨MCP2517FD_OSC_PLLEN, 0, 0⟩ = .error .ENODEV := by
  refine ⟨rfl, rfl, rfl⟩

/-- C5 amended: the three bring-up failure modes all surface as the same
error code -ENODEV rather than pairwise distinct results: an inconsistent
oscillator/PLL status (neither ready nor disabled), exceeding the
oscillator polling deadline, and failed identity verification each return
-ENODEV; the inconsistent-oscillator case is distinguished only by a
logged warning, not by its return value. -/
theorem C5_bringup_errors_amended (o o2 : ProbeOracle) (pll div2 : Bool)
    (polls : List Nat)
    (hf1 : o.osc &&& (MCP2517FD_OSC_OSCRDY ||| MCP2517FD_OSC_OSCDIS) ≠
             MCP2517FD_OSC_OSCRDY)
    (hf2 : o.osc &&& (MCP2517FD_OSC_OSCRDY ||| MCP2517FD_OSC_OSCDIS) ≠
             MCP2517FD_OSC_OSCDIS)
    (hpoll : ∀ p ∈ polls, p &&& oscWaitfor pll div2 ≠ oscWaitfor pll div2)
    (hi1 : o2.osc &&& (MCP2517FD_OSC_OSCRDY ||| MCP2517FD_OSC_OSCDIS) =
             MCP2517FD_OSC_OSCRDY)
    (hi2 : o2.con1 &&& CAN_CON_DEFAULT_MASK ≠ CAN_CON_DEFAULT)
    (hi3 : o2.con2 &&& CAN_CON_DEFAULT_MASK ≠ CAN_CON_DEFAULT) :
    mcp2517fd_hw_probe o = .error .ENODEV ∧
    mcp2517fd_setup_osc pll div2 10 polls = .error .ENODEV ∧
    mcp2517fd_hw_probe o2 = .error .ENODEV := by
  refine ⟨?_, ?_, ?_⟩
  · rw [mcp2517fd_hw_probe, if_neg hf1, if_neg hf2]
  · rw [mcp2517fd_setup_osc, if_pos (by norm_num)]
    exact oscPoll_all_fail _ polls hpoll
  · rw [mcp2517fd_hw_probe, if_pos hi1, mcp2517fd_probe_con,
       if_neg hi2, if_pos hi3]

/-- C5 witness: the amended theorem at a concrete oracle (PLL enabled but
not ready), an exhausted two-sample polling window, and a concrete failed
identity probe. -/
theorem C5_bringup_errors_witness :
    mcp2517fd_hw_probe ⟨1, 0, 0⟩ = .error .ENODEV ∧
    mcp2517fd_setup_osc false false 10 [0, 0] = .error .ENODEV ∧
    mcp2517fd_hw_probe ⟨1024, 0, 0⟩ = .error .ENODEV :=
  C5_bringup_errors_amended ⟨1, 0, 0⟩ ⟨1024, 0, 0⟩ false false [0, 0]
    (by decide) (by decide) (by decide) (by decide) (by decide) (by decide)

theorem allocSeq_range (N : Nat) : ∀ s k, k + s ≤ N → N ≤ 32 →
    allocSeq N s (2 ^ k - 1) = (List.range' k s, 2 ^ (k + s) - 1) := by
  intro s
  induction s with
  | zero =>
    intro k hk hN
    simp [allocSeq, List.range']
  | succ t ih =>
    intro k hk hN
    have hx := start_xmit_pow_sub_one N k (by omega)
    rw [if_neg (by omega : ¬ N ≤ k)] at hx
    simp only [allocSeq, hx]
    rw [ih (k + 1) (by omega) hN]
    rw [List.range'_succ]
    rw [show k + 1 + t = k + (t + 1) by omega]

/-- C1 counterexample: with 2 TX FIFOs, two allocations fill slots 0 and 1;
releasing slot 0 (the claim's "any single slot") leaves the mask 0b10, and
the next allocation returns Busy instead of succeeding with index 0,
because the allocator uses fls (one above the highest pending bit), not a
lowest-free scan. -/
theorem C1_tx_alloc_counterexample :
    allocSeq 2 2 0 = ([0, 1], 3) ∧
    txRelease 3 0 = 2 ∧
    mcp2517fd_start_xmit 2 2 = none := by
  refine ⟨by decide, by decide, by decide⟩

/-- C1 amended: for a device with N TX FIFOs, N successive successful
allocations from the empty bitmap yield the distinct indices 0..N-1 and
the (N+1)-th attempt returns Busy; however, the lowest-free-index policy
does not hold on release: only releasing the highest-indexed pending slot
(N-1) lets the next allocation succeed (returning that index), while
releasing any lower slot leaves every subsequent allocation Busy, since
the allocator picks fls(pending) — one above the highest pending bit. -/
theorem C1_tx_alloc_amended (N : Nat) (h1 : 1 ≤ N) (h2 : N ≤ 32) :
    allocSeq N N 0 = (List.range N, 2 ^ N - 1) ∧
    (List.range N).Nodup ∧
    mcp2517fd_start_xmit N (2 ^ N - 1) = none ∧
    mcp2517fd_start_xmit N (txRelease (2 ^ N - 1) (N - 1)) =
      some (N - 1, 2 ^ N - 1) ∧
    (∀ i, i + 1 < N → mcp2517fd_start_xmit N (txRelease (2 ^ N - 1) i) =
      none) := by
  have hrel : ∀ i, i < N → txRelease (2 ^ N - 1) i = 2 ^ N - 1 - 2 ^ i := by
    intro i hi
    rw [txRelease, if_pos, BIT]
    rw [Nat.testBit_two_pow_sub_one]
    exact decide_eq_true hi
  refine ⟨?_, List.nodup_range N, ?_, ?_, ?_⟩
  · have h := allocSeq_range N N 0 (by omega) h2
    simpa [List.range_eq_range'] using h
  · rw [start_xmit_pow_sub_one N N (by omega), if_pos (le_refl N)]
  · rw [hrel (N - 1) (by omega)]
    have hsplit : 2 ^ N = 2 * 2 ^ (N - 1) := by
      conv_lhs => rw [show N = (N - 1) + 1 by omega]
      rw [pow_succ]
      ring
    have hone : 1 ≤ 2 ^ (N - 1) := Nat.one_le_two_pow
    rw [show 2 ^ N - 1 - 2 ^ (N - 1) = 2 ^ (N - 1) - 1 by omega]
    rw [start_xmit_pow_sub_one N (N - 1) (by omega),
       if_neg (by omega : ¬ N ≤ N - 1)]
    rw [show N - 1 + 1 = N by omega]
  · intro i hi
    rw [hrel i (by omega)]
    set m := 2 ^ N - 1 - 2 ^ i with hm
    have hi2 : 2 ^ i < 2 ^ (N - 1) :=
      Nat.pow_lt_pow_right (by norm_num) (by omega)
    have hsplit : 2 ^ N = 2 * 2 ^ (N - 1) := by
      conv_lhs => rw [show N = (N - 1) + 1 by omega]
      rw [pow_succ]
      ring
    have hone : 1 ≤ 2 ^ i := Nat.one_le_two_pow
    have hb1 : 2 ^ (N - 1) ≤ m := by omega
    have hb2 : m < 2 ^ N := by omega
    have hb2e : m < 2 ^ (N - 1 + 1) := by
      rw [show N - 1 + 1 = N by omega]
      exact hb2
    have h64 : m < 2 ^ 64 := by
      have : (2 : Nat) ^ N ≤ 2 ^ 64 :=
        Nat.pow_le_pow_right (by norm_num) (by omega)
      omega
    have hfls : fls m = N := by
      have := fls_eq_of_bounds m (N - 1) hb1 hb2e h64
      omega
    rw [mcp2517fd_start_xmit, hfls, if_pos (le_refl N)]

/-- C1 witness: the amended allocator behaviour at the concrete classic
configuration of 30 TX FIFOs. -/
theorem C1_tx_alloc_witness :
    allocSeq 30 30 0 = (List.range 30, 2 ^ 30 - 1) ∧
    (List.range 30).Nodup ∧
    mcp2517fd_start_xmit 30 (2 ^ 30 - 1) = none ∧
    mcp2517fd_start_xmit 30 (txRelease (2 ^ 30 - 1) (30 - 1)) =
      some (30 - 1, 2 ^ 30 - 1) ∧
    (∀ i, i + 1 < 30 → mcp2517fd_start_xmit 30 (txRelease (2 ^ 30 - 1) i) =
      none) :=
  C1_tx_alloc_amended 30 (by norm_num) (by norm_num)

/-- C10: starting from the empty TX pending bitmap, every sequence of
submissions and stop-time cleanups keeps the bitmap of the form 2^k - 1
(the k lowest bits set, 0 ≤ k ≤ tx_fifos); from such a state a successful
submission is assigned index k (the number of pending slots, one above the
highest set bit) producing 2^(k+1) - 1, submission from the full state is
Busy, and a Busy return always leaves the bitmap unchanged. -/
theorem C10_tx_bitmap_invariant (N : Nat) (ops : List TxOp) (hN : N ≤ 32) :
    ∃ k, k ≤ N ∧ txRun N ops = 2 ^ k - 1 ∧
      (k < N → mcp2517fd_start_xmit N (2 ^ k - 1) =
        some (k, 2 ^ (k + 1) - 1)) ∧
      (N ≤ k → mcp2517fd_start_xmit N (2 ^ k - 1) = none) ∧
      (∀ m, mcp2517fd_start_xmit N m = none → txStep N m TxOp.submit = m) := by
  have key : ∀ ops2 : List TxOp, ∀ k, k ≤ N → ∃ j, j ≤ N ∧
      List.foldl (fun m op => txStep N m op) (2 ^ k - 1) ops2 = 2 ^ j - 1 := by
    intro ops2
    induction ops2 with
    | nil =>
      intro k hk
      exact ⟨k, hk, rfl⟩
    | cons op rest ih =>
      intro k hk
      cases op with
      | submit =>
        simp only [List.foldl_cons, txStep]
        rw [start_xmit_pow_sub_one N k (by omega)]
        by_cases h : N ≤ k
        · rw [if_pos h]
          exact ih k hk
        · rw [if_neg h]
          exact ih (k + 1) (by omega)
      | clean =>
        simp only [List.foldl_cons, txStep, mcp2517fd_clean]
        have h0 : (0 : Nat) = 2 ^ 0 - 1 := by norm_num
        rw [h0]
        exact ih 0 (by omega)
  have h0 : txRun N ops = List.foldl (fun m op => txStep N m op)
      (2 ^ 0 - 1) ops := by
    rw [txRun]
    norm_num
  obtain ⟨j, hj, heq⟩ := key ops 0 (by omega)
  refine ⟨j, hj, by rw [h0, heq], ?_, ?_, ?_⟩
  · intro hlt
    rw [start_xmit_pow_sub_one N j (by omega), if_neg (by omega : ¬ N ≤ j)]
  · intro hge
    rw [start_xmit_pow_sub_one N j (by omega), if_pos hge]
  · intro m hm
    simp only [txStep, hm]

/-- C10 witness: the invariant instantiated for the classic configuration
(30 TX FIFOs) on a concrete operation sequence. -/
theorem C10_tx_bitmap_invariant_witness :
    ∃ k, k ≤ 30 ∧
      txRun 30 [TxOp.submit, TxOp.submit, TxOp.clean, TxOp.submit] =
        2 ^ k - 1 ∧
      (k < 30 → mcp2517fd_start_xmit 30 (2 ^ k - 1) =
        some (k, 2 ^ (k + 1) - 1)) ∧
      (30 ≤ k → mcp2517fd_start_xmit 30 (2 ^ k - 1) = none) ∧
      (∀ m, mcp2517fd_start_xmit 30 m = none →
        txStep 30 m TxOp.submit = m) :=
  C10_tx_bitmap_invariant 30 [TxOp.submit, TxOp.submit, TxOp.clean,
    TxOp.submit] (by norm_num)

theorem nominal_val_sum (sjw prop_seg phase_seg1 phase_seg2 brp : Nat)
    (h1 : 1 ≤ sjw) (h2 : sjw ≤ 2 ^ 7)
    (h3 : 1 ≤ phase_seg2) (h4 : phase_seg2 ≤ 2 ^ 7)
    (h5 : 1 ≤ phase_seg1 + prop_seg) (h6 : phase_seg1 + prop_seg ≤ 2 ^ 8)
    (h7 : brp < 2 ^ 8) :
    mcp2517fd_nominal_bittiming_val sjw prop_seg phase_seg1 phase_seg2 brp =
      (sjw - 1) + (phase_seg2 - 1) * 2 ^ 8 +
      (phase_seg1 + prop_seg - 1) * 2 ^ 16 + brp * 2 ^ 24 := by
  have ha : u32sub1 sjw = sjw - 1 := by
    rw [u32sub1]
    omega
  have hb : u32sub1 phase_seg2 = phase_seg2 - 1 := by
    rw [u32sub1]
    omega
  have hc : u32sub1 (u32 (phase_seg1 + prop_seg)) =
      phase_seg1 + prop_seg - 1 := by
    rw [u32, u32sub1]
    omega
  rw [mcp2517fd_nominal_bittiming_val, ha, hb, hc]
  simp only [CAN_NBTCFG_SJW_SHIFT, CAN_NBTCFG_TSEG2_SHIFT,
    CAN_NBTCFG_TSEG1_SHIFT, CAN_NBTCFG_BRP_SHIFT, Nat.shiftLeft_eq, u32]
  rw [Nat.mod_eq_of_lt (show (sjw - 1) * 2 ^ 0 < 2 ^ 32 by omega),
     Nat.mod_eq_of_lt (show (phase_seg2 - 1) * 2 ^ 8 < 2 ^ 32 by omega),
     Nat.mod_eq_of_lt
       (show (phase_seg1 + prop_seg - 1) * 2 ^ 16 < 2 ^ 32 by omega),
     Nat.mod_eq_of_lt (show brp % 2 ^ 32 * 2 ^ 24 < 2 ^ 32 by omega)]
  rw [show (sjw - 1) * 2 ^ 0 = sjw - 1 by omega,
     show brp % 2 ^ 32 = brp by omega]
  rw [or_mul_two_pow_add (sjw - 1) (phase_seg2 - 1) 8 (by omega)]
  rw [or_mul_two_pow_add _ (phase_seg1 + prop_seg - 1) 16 (by omega)]
  rw [or_mul_two_pow_add _ brp 24 (by omega)]
  exact Nat.mod_eq_of_lt (by omega)

theorem data_val_sum (sjw prop_seg phase_seg1 phase_seg2 brp : Nat)
    (h1 : 1 ≤ sjw) (h2 : sjw ≤ 2 ^ 4)
    (h3 : 1 ≤ phase_seg2) (h4 : phase_seg2 ≤ 2 ^ 4)
    (h5 : 1 ≤ phase_seg1 + prop_seg) (h6 : phase_seg1 + prop_seg ≤ 2 ^ 5)
    (h7 : brp < 2 ^ 8) :
    mcp2517fd_data_bittiming_val sjw prop_seg phase_seg1 phase_seg2 brp =
      (sjw - 1) + (phase_seg2 - 1) * 2 ^ 8 +
      (phase_seg1 + prop_seg - 1) * 2 ^ 16 + brp * 2 ^ 24 := by
  have ha : u32sub1 sjw = sjw - 1 := by
    rw [u32sub1]
    omega
  have hb : u32sub1 phase_seg2 = phase_seg2 - 1 := by
    rw [u32sub1]
    omega
  have hc : u32sub1 (u32 (phase_seg1 + prop_seg)) =
      phase_seg1 + prop_seg - 1 := by
    rw [u32, u32sub1]
    omega
  rw [mcp2517fd_data_bittiming_val, ha, hb, hc]
  simp only [CAN_DBTCFG_SJW_SHIFT, CAN_DBTCFG_TSEG2_SHIFT,
    CAN_DBTCFG_TSEG1_SHIFT, CAN_DBTCFG_BRP_SHIFT, Nat.shiftLeft_eq, u32]
  rw [Nat.mod_eq_of_lt (show (sjw - 1) * 2 ^ 0 < 2 ^ 32 by omega),
     Nat.mod_eq_of_lt (show (phase_seg2 - 1) * 2 ^ 8 < 2 ^ 32 by omega),
     Nat.mod_eq_of_lt
       (show (phase_seg1 + prop_seg - 1) * 2 ^ 16 < 2 ^ 32 by omega),
     Nat.mod_eq_of_lt (show brp % 2 ^ 32 * 2 ^ 24 < 2 ^ 32 by omega)]
  rw [show (sjw - 1) * 2 ^ 0 = sjw - 1 by omega,
     show brp % 2 ^ 32 = brp by omega]
  rw [or_mul_two_pow_add (sjw - 1) (phase_seg2 - 1) 8 (by omega)]
  rw [or_mul_two_pow_add _ (phase_seg1 + prop_seg - 1) 16 (by omega)]
  rw [or_mul_two_pow_add _ brp 24 (by omega)]
  exact Nat.mod_eq_of_lt (by omega)

/-- C3: for parameter sets whose fields fit their register bit widths
after the -1 encoding bias, both the nominal and the data bit-timing
register words carry SJW = sjw-1 in the SJW field, TSEG2 = phase_seg2-1
in the TSEG2 field, TSEG1 = phase_seg1+prop_seg-1 in the TSEG1 field, and
BRP = prescaler (no -1 bias) in the BRP field, each at its register
position (field f extracted as val / 2^shift mod 2^bits). -/
theorem C3_bittiming_fields
    (sjw prop_seg phase_seg1 phase_seg2 brp : Nat)
    (dsjw dprop dps1 dps2 dbrp : Nat)
    (h1 : 1 ≤ sjw) (h2 : sjw ≤ 2 ^ CAN_NBTCFG_SJW_BITS)
    (h3 : 1 ≤ phase_seg2) (h4 : phase_seg2 ≤ 2 ^ CAN_NBTCFG_TSEG2_BITS)
    (h5 : 1 ≤ phase_seg1 + prop_seg)
    (h6 : phase_seg1 + prop_seg ≤ 2 ^ CAN_NBTCFG_TSEG1_BITS)
    (h7 : brp < 2 ^ CAN_NBTCFG_BRP_BITS)
    (d1 : 1 ≤ dsjw) (d2 : dsjw ≤ 2 ^ CAN_DBTCFG_SJW_BITS)
    (d3 : 1 ≤ dps2) (d4 : dps2 ≤ 2 ^ CAN_DBTCFG_TSEG2_BITS)
    (d5 : 1 ≤ dps1 + dprop) (d6 : dps1 + dprop ≤ 2 ^ CAN_DBTCFG_TSEG1_BITS)
    (d7 : dbrp < 2 ^ CAN_DBTCFG_BRP_BITS) :
    (mcp2517fd_nominal_bittiming_val sjw prop_seg phase_seg1 phase_seg2 brp /
       2 ^ CAN_NBTCFG_SJW_SHIFT % 2 ^ CAN_NBTCFG_SJW_BITS = sjw - 1) ∧
    (mcp2517fd_nominal_bittiming_val sjw prop_seg phase_seg1 phase_seg2 brp /
       2 ^ CAN_NBTCFG_TSEG2_SHIFT % 2 ^ CAN_NBTCFG_TSEG2_BITS =
       phase_seg2 - 1) ∧
    (mcp2517fd_nominal_bittiming_val sjw prop_seg phase_seg1 phase_seg2 brp /
       2 ^ CAN_NBTCFG_TSEG1_SHIFT % 2 ^ CAN_NBTCFG_TSEG1_BITS =
       phase_seg1 + prop_seg - 1) ∧
    (mcp2517fd_nominal_bittiming_val sjw prop_seg phase_seg1 phase_seg2 brp /
       2 ^ CAN_NBTCFG_BRP_SHIFT % 2 ^ CAN_NBTCFG_BRP_BITS = brp) ∧
    (mcp2517fd_data_bittiming_val dsjw dprop dps1 dps2 dbrp /
       2 ^ CAN_DBTCFG_SJW_SHIFT % 2 ^ CAN_DBTCFG_SJW_BITS = dsjw - 1) ∧
    (mcp2517fd_data_bittiming_val dsjw dprop dps1 dps2 dbrp /
       2 ^ CAN_DBTCFG_TSEG2_SHIFT % 2 ^ CAN_DBTCFG_TSEG2_BITS = dps2 - 1) ∧
    (mcp2517fd_data_bittiming_val dsjw dprop dps1 dps2 dbrp /
       2 ^ CAN_DBTCFG_TSEG1_SHIFT % 2 ^ CAN_DBTCFG_TSEG1_BITS =
       dps1 + dprop - 1) ∧
    (mcp2517fd_data_bittiming_val dsjw dprop dps1 dps2 dbrp /
       2 ^ CAN_DBTCFG_BRP_SHIFT % 2 ^ CAN_DBTCFG_BRP_BITS = dbrp) := by
  simp only [CAN_NBTCFG_SJW_BITS, CAN_NBTCFG_SJW_SHIFT,
    CAN_NBTCFG_TSEG2_BITS, CAN_NBTCFG_TSEG2_SHIFT, CAN_NBTCFG_TSEG1_BITS,
    CAN_NBTCFG_TSEG1_SHIFT, CAN_NBTCFG_BRP_BITS, CAN_NBTCFG_BRP_SHIFT,
    CAN_DBTCFG_SJW_BITS, CAN_DBTCFG_SJW_SHIFT, CAN_DBTCFG_TSEG2_BITS,
    CAN_DBTCFG_TSEG2_SHIFT, CAN_DBTCFG_TSEG1_BITS, CAN_DBTCFG_TSEG1_SHIFT,
    CAN_DBTCFG_BRP_BITS, CAN_DBTCFG_BRP_SHIFT] at *
  rw [nominal_val_sum sjw prop_seg phase_seg1 phase_seg2 brp
      h1 h2 h3 h4 h5 h6 h7,
     data_val_sum dsjw dprop dps1 dps2 dbrp d1 d2 d3 d4 d5 d6 d7]
  refine ⟨by omega, by omega, by omega, by omega,
    by omega, by omega, by omega, by omega⟩

/-- C3 witness: concrete in-range nominal and data parameter sets. -/
theorem C3_bittiming_fields_witness :
    (mcp2517fd_nominal_bittiming_val 4 20 40 15 5 /
       2 ^ CAN_NBTCFG_SJW_SHIFT % 2 ^ CAN_NBTCFG_SJW_BITS = 4 - 1) ∧
    (mcp2517fd_nominal_bittiming_val 4 20 40 15 5 /
       2 ^ CAN_NBTCFG_TSEG2_SHIFT % 2 ^ CAN_NBTCFG_TSEG2_BITS = 15 - 1) ∧
    (mcp2517fd_nominal_bittiming_val 4 20 40 15 5 /
       2 ^ CAN_NBTCFG_TSEG1_SHIFT % 2 ^ CAN_NBTCFG_TSEG1_BITS =
       40 + 20 - 1) ∧
    (mcp2517fd_nominal_bittiming_val 4 20 40 15 5 /
       2 ^ CAN_NBTCFG_BRP_SHIFT % 2 ^ CAN_NBTCFG_BRP_BITS = 5) ∧
    (mcp2517fd_data_bittiming_val 2 4 10 5 3 /
       2 ^ CAN_DBTCFG_SJW_SHIFT % 2 ^ CAN_DBTCFG_SJW_BITS = 2 - 1) ∧
    (mcp2517fd_data_bittiming_val 2 4 10 5 3 /
       2 ^ CAN_DBTCFG_TSEG2_SHIFT % 2 ^ CAN_DBTCFG_TSEG2_BITS = 5 - 1) ∧
    (mcp2517fd_data_bittiming_val 2 4 10 5 3 /
       2 ^ CAN_DBTCFG_TSEG1_SHIFT % 2 ^ CAN_DBTCFG_TSEG1_BITS =
       10 + 4 - 1) ∧
    (mcp2517fd_data_bittiming_val 2 4 10 5 3 /
       2 ^ CAN_DBTCFG_BRP_SHIFT % 2 ^ CAN_DBTCFG_BRP_BITS = 3) :=
  C3_bittiming_fields 4 20 40 15 5 2 4 10 5 3
    (by norm_num) (by norm_num [CAN_NBTCFG_SJW_BITS])
    (by norm_num) (by norm_num [CAN_NBTCFG_TSEG2_BITS])
    (by norm_num) (by norm_num [CAN_NBTCFG_TSEG1_BITS])
    (by norm_num [CAN_NBTCFG_BRP_BITS])
    (by norm_num) (by norm_num [CAN_DBTCFG_SJW_BITS])
    (by norm_num) (by norm_num [CAN_DBTCFG_TSEG2_BITS])
    (by norm_num) (by norm_num [CAN_DBTCFG_TSEG1_BITS])
    (by norm_num [CAN_DBTCFG_BRP_BITS])

/-- C2 counterexample: the claim that a masked write of v followed by a
masked read with the same mask returns v restricted to the mask's bits is
false: for mask 1 and v 2 the round trip returns 2 (the whole span byte),
not v &&& mask = 0; and for mask 0x100 and v 0x100 (span starting at byte
1) the round trip returns 0, not v &&& mask = 0x100, because the C code
offsets its data pointers by whole u32 words instead of bytes. -/
theorem C2_masked_roundtrip_counterexample :
    rmwValue (fun _ => 0) (fun _ => 0) 0 2 1 = some 2 ∧
    (2 : Nat) &&& 1 = 0 ∧
    rmwValue (fun _ => 0) (fun _ => 0) 0 256 256 = some 0 ∧
    (256 : Nat) &&& 256 = 256 := by
  refine ⟨by decide, by decide, by decide, by decide⟩

theorem roundtrip_first_byte_zero (regs garbage : Nat → Nat)
    (reg v mask : Nat) (h0 : mask ≠ 0) (hfb : first_byte mask = 0)
    (hlb : last_byte mask ≤ 3) :
    rmwValue regs garbage reg v mask =
      some (v % 2 ^ (8 * (last_byte mask + 1))) := by
  simp only [rmwValue, mcp2517fd_cmd_write_mask, mcp2517fd_cmd_read_mask,
    if_neg h0, readValue, hfb, Nat.mul_zero, Nat.add_zero, Nat.zero_add,
    Nat.sub_zero, Nat.zero_le, true_and]
  simp only [Nat.le_refl, Nat.le_add_right, Nat.add_lt_add_iff_left,
    Nat.sub_self, Nat.add_sub_cancel_left, true_and, txObjByte, le32Byte]
  interval_cases h : last_byte mask <;> norm_num <;> omega

theorem read_zero_of_high_span (regs : Nat → Nat) (reg mask : Nat)
    (h0 : mask ≠ 0) (h1 : mask < 2 ^ 32) (hm : mask % 2 ^ 8 = 0) :
    readValue (mcp2517fd_cmd_read_mask regs reg mask) = some 0 := by
  have h64 : mask < 2 ^ 64 := lt_of_lt_of_le h1 (by norm_num)
  have hbit := (ffs_spec mask h0 h64).2
  have hge : 8 ≤ ffs mask - 1 := by
    by_contra hc
    push_neg at hc
    rw [testBit_eq_false_of_mod mask 8 _ hm hc] at hbit
    exact Bool.false_ne_true hbit
  have hfb : 1 ≤ first_byte mask := by
    rw [first_byte]
    omega
  simp only [mcp2517fd_cmd_read_mask, if_neg h0, readValue]
  rw [if_neg (by omega : ¬(4 * first_byte mask ≤ 0 ∧
        0 < 4 * first_byte mask +
          (last_byte mask - first_byte mask + 1))),
     if_neg (by omega : ¬(4 * first_byte mask ≤ 1 ∧
        1 < 4 * first_byte mask +
          (last_byte mask - first_byte mask + 1))),
     if_neg (by omega : ¬(4 * first_byte mask ≤ 2 ∧
        2 < 4 * first_byte mask +
          (last_byte mask - first_byte mask + 1))),
     if_neg (by omega : ¬(4 * first_byte mask ≤ 3 ∧
        3 < 4 * first_byte mask +
          (last_byte mask - first_byte mask + 1)))]
  norm_num

/-- C2 amended: for every nonzero 32-bit mask the byte span the codec
computes is the minimal contiguous span covering the mask (each end byte
of the span contains a set mask bit, and every byte containing a set mask
bit lies within the span), and a masked write transmits exactly a 2-byte
header plus one byte per span byte; however the read-after-write round
trip returns the written value restricted to the span's whole bytes (not
to the mask's individual bits) — thereby agreeing with v on the mask's
bits — and only when the span starts at byte 0; when the lowest mask byte
is empty, the word-sized pointer offsets in the C code make the masked
read return 0. -/
theorem C2_masked_span_amended (regs garbage : Nat → Nat) (reg v mask : Nat)
    (h0 : mask ≠ 0) (h1 : mask < 2 ^ 32) :
    (byteOf mask (first_byte mask) ≠ 0 ∧
     byteOf mask (last_byte mask) ≠ 0 ∧
     ∀ b, byteOf mask b ≠ 0 → first_byte mask ≤ b ∧ b ≤ last_byte mask) ∧
    (∀ r2 tx,
       mcp2517fd_cmd_write_mask regs garbage reg v mask = .ok (r2, tx) →
       tx.length = 2 + (last_byte mask - first_byte mask + 1)) ∧
    (mask % 2 ^ 8 ≠ 0 →
       rmwValue regs garbage reg v mask =
         some (v % 2 ^ (8 * (last_byte mask + 1))) ∧
       v % 2 ^ (8 * (last_byte mask + 1)) &&& mask = v &&& mask) ∧
    (mask % 2 ^ 8 = 0 →
       readValue (mcp2517fd_cmd_read_mask regs reg mask) = some 0) := by
  refine ⟨⟨byteOf_first_byte_ne_zero mask h0 h1,
          byteOf_last_byte_ne_zero mask h0 h1,
          fun b hb => byte_span_bounds mask b h0 h1 hb⟩, ?_, ?_,
          fun hm => read_zero_of_high_span regs reg mask h0 h1 hm⟩
  · intro r2 tx h
    simp only [mcp2517fd_cmd_write_mask, if_neg h0, Except.ok.injEq,
      Prod.mk.injEq] at h
    obtain ⟨-, htx⟩ := h
    rw [← htx]
    simp [mcp2517fd_calc_cmd_addr]
    omega
  · intro hm
    have hfb : first_byte mask = 0 := by
      have hb0 : byteOf mask 0 ≠ 0 := by
        rw [byteOf]
        omega
      have := (byte_span_bounds mask 0 h0 h1 hb0).1
      omega
    have hlb := last_byte_le_three mask h1
    refine ⟨roundtrip_first_byte_zero regs garbage reg v mask h0 hfb hlb,
      ?_⟩
    apply mod_and_eq_of_lt
    have h64 : mask < 2 ^ 64 := lt_of_lt_of_le h1 (by norm_num)
    obtain ⟨-, hflsr⟩ := fls_bounds mask h0 h64
    have hp := fls_pos mask h0 h64
    have hle : fls mask ≤ 8 * (last_byte mask + 1) := by
      rw [last_byte]
      omega
    exact lt_of_lt_of_le hflsr (Nat.pow_le_pow_right (by norm_num) hle)

/-- C2 witness: the amended span and round-trip behaviour at the concrete
mask 0x3c0 (bits 6..9, spanning bytes 0 and 1) with value 0xabcd. -/
theorem C2_masked_span_witness :
    (byteOf 0x3c0 (first_byte 0x3c0) ≠ 0 ∧
     byteOf 0x3c0 (last_byte 0x3c0) ≠ 0 ∧
     ∀ b, byteOf 0x3c0 b ≠ 0 →
       first_byte 0x3c0 ≤ b ∧ b ≤ last_byte 0x3c0) ∧
    (∀ r2 tx,
       mcp2517fd_cmd_write_mask (fun _ => 0) (fun _ => 0) 0 0xabcd 0x3c0 =
         .ok (r2, tx) →
       tx.length = 2 + (last_byte 0x3c0 - first_byte 0x3c0 + 1)) ∧
    ((0x3c0 : Nat) % 2 ^ 8 ≠ 0 →
       rmwValue (fun _ => 0) (fun _ => 0) 0 0xabcd 0x3c0 =
         some (0xabcd % 2 ^ (8 * (last_byte 0x3c0 + 1))) ∧
       0xabcd % 2 ^ (8 * (last_byte 0x3c0 + 1)) &&& 0x3c0 =
         0xabcd &&& 0x3c0) ∧
    ((0x3c0 : Nat) % 2 ^ 8 = 0 →
       readValue (mcp2517fd_cmd_read_mask (fun _ => 0) 0 0x3c0) =
         some 0) :=
  C2_masked_span_amended (fun _ => 0) (fun _ => 0) 0 0xabcd 0x3c0
    (by decide) (by norm_num)
